import Mathlib

/-!
Verification of the runtime CPU-feature dispatch mechanism of the repository:
the SIMD kernels of `test cases/common/139 simd` (`simd_mmx.c`, `simd_sse.c`,
`simd_sse41.c`, `simd_sse42.c`), the priority chain of
`test cases/common/152 simd/simdchecker.c`, and the multi-target dispatch
macros of `test cases/features/2 multi_targets` (`dispatch.h`, `dispatch1.c`,
`main.c`).

Machine floats are modelled exactly as fractions `num / den` with an integer
numerator and a positive integer denominator (`F` below).  Every arithmetic
step the kernels perform — adding the literal 1.0, float/double conversions,
truncating casts to `int16`, `_mm_ceil_pd` — is exact on the value level for
the magnitudes these kernels are used with, so the fraction model agrees with
the machine there, and the structural facts proved here (lane permutations,
the SSE4.1 ceiling, int16 truncation and wraparound in the MMX kernel) are
precision-independent.  Numeric equality of two model floats is value
equality of the fractions (`F.eqv`, cross multiplication).
-/

/-- The CPU instruction-set extension tiers named across the SIMD test files
(`simdfuncs.h` of `155 simd`, the chain of `152 simd/simdchecker.c`, and the
`CPU_*` enum of `features/2 multi_targets/dispatch.h`). -/
inductive Extension where
  | mmx
  | sse
  | sse2
  | sse3
  | ssse3
  | sse41
  | sse42
  | avx
  | avx2
  | neon
  | neonFp16
  | neonVfpv4
  | asimd
  | altivec
  deriving DecidableEq, Fintype, Repr

/-- Exact model of a machine-float value: the fraction `num / den`.
Denominators are kept positive (`F.wf`); no normalisation is performed, so
all operations are plain integer arithmetic and fully computable. -/
structure F where
  num : Int
  den : Int
  deriving DecidableEq, Repr

/-- A model float is well formed when its denominator is positive. -/
def F.wf (x : F) : Prop := 0 < x.den

instance (x : F) : Decidable x.wf := by unfold F.wf; infer_instance

/-- Numeric equality of two model floats: `a/b = c/d` iff `a*d = c*b`. -/
def F.eqv (x y : F) : Prop := x.num * y.den = y.num * x.den

instance (x y : F) : Decidable (x.eqv y) := by unfold F.eqv; infer_instance

/-- The model float of an integer. -/
def F.ofInt (n : Int) : F := ⟨n, 1⟩

/-- Adding the literal `1.0` to a float, exact at the value level:
`num/den + 1 = (num + den)/den`. -/
def F.addOne (x : F) : F := ⟨x.num + x.den, x.den⟩

/-- Truncation toward zero: the C conversion from `float` to an integer type,
as performed by passing `arr[i]` to `_mm_set_pi16` in `increment_mmx`
(`Int.tdiv` rounds toward zero; the denominator is positive). -/
def F.trunc (x : F) : Int := x.num.tdiv x.den

/-- Ceiling of a model float, as applied per double lane by `_mm_ceil_pd` in
`increment_sse41`: `⌈a/b⌉ = -(⌊-a/b⌋)` with `Int.fdiv` the flooring
division. -/
def F.ceil (x : F) : Int := -((-x.num).fdiv x.den)

/-- The `float arr[4]` argument every `increment_*` kernel receives. -/
structure Vec4 where
  a0 : F
  a1 : F
  a2 : F
  a3 : F
  deriving DecidableEq, Repr

/-- Componentwise numeric equality of two float arrays: what the checker's
`four[i] != expected[i]` comparisons observe. -/
def Vec4.eqv (v w : Vec4) : Prop :=
  v.a0.eqv w.a0 ∧ v.a1.eqv w.a1 ∧ v.a2.eqv w.a2 ∧ v.a3.eqv w.a3

instance (v w : Vec4) : Decidable (v.eqv w) := by unfold Vec4.eqv; infer_instance

/-- All four elements of the array are well-formed floats. -/
def Vec4.wf (v : Vec4) : Prop := v.a0.wf ∧ v.a1.wf ∧ v.a2.wf ∧ v.a3.wf

instance (v : Vec4) : Decidable v.wf := by unfold Vec4.wf; infer_instance

/-- The array whose four elements are the integers `n0 n1 n2 n3`. -/
def Vec4.ofInts (n0 n1 n2 n3 : Int) : Vec4 :=
  ⟨.ofInt n0, .ofInt n1, .ofInt n2, .ofInt n3⟩

/-- Computes `arr[i] + 1.0` for every `i`: the mathematically specified result of the
increment-by-one operation contract. -/
def Vec4.addOne (v : Vec4) : Vec4 :=
  ⟨v.a0.addOne, v.a1.addOne, v.a2.addOne, v.a3.addOne⟩

/-- Modelled from the spec: `increment_fallback` (declared in `simdfuncs.h`,
called from both `simdchecker.c` drivers; its defining `.c` file is not under
`src/`).  The spec describes the operation as "an increment-by-one kernel"
whose fallback is the plain C implementation adding 1.0 per element. -/
def increment_fallback (arr : Vec4) : Vec4 := arr.addOne

/-- Kernel `increment_mmx` from `139 simd/simd_mmx.c`: each float is converted to an
`int16` lane of `_mm_set_pi16` (truncation toward zero), `_mm_add_pi16` adds
1 with 16-bit wraparound, and each lane's unsigned 16-bit pattern is read
back into the float array via `unpacker & ((1<<16)-1)` and `unpacker >>= 16`
(`Int.emod 65536` is exactly that unsigned pattern). -/
def increment_mmx (arr : Vec4) : Vec4 :=
  let lane : F → F := fun x => .ofInt ((x.trunc + 1).emod 65536)
  ⟨lane arr.a0, lane arr.a1, lane arr.a2, lane arr.a3⟩

/-- Kernel `increment_sse` from `139 simd/simd_sse.c`: `_mm_load_ps` the four
floats, `_mm_add_ps` the broadcast 1.0, `_mm_storeu_ps` back. -/
def increment_sse (arr : Vec4) : Vec4 :=
  ⟨arr.a0.addOne, arr.a1.addOne, arr.a2.addOne, arr.a3.addOne⟩

/-- Kernel `increment_sse41` from `139 simd/simd_sse41.c`, step for step:
`_mm_set_pd(arr[0], arr[1])` puts `arr[1]` in the low double lane and
`arr[0]` in the high lane; 1.0 is added and `_mm_ceil_pd` applied to that
pair; `_mm_store_pd` writes the low lane first (`darr[0] = lo`); the second
pair gets no ceiling; finally the float array is read back with each pair
swapped (`arr[0] = darr[1]`, `arr[1] = darr[0]`, `arr[2] = darr[3]`,
`arr[3] = darr[2]`). -/
def increment_sse41 (arr : Vec4) : Vec4 :=
  let val1lo := arr.a1
  let val1hi := arr.a0
  let val2lo := arr.a3
  let val2hi := arr.a2
  let darr0 := F.ofInt (val1lo.addOne.ceil)
  let darr1 := F.ofInt (val1hi.addOne.ceil)
  let darr2 := val2lo.addOne
  let darr3 := val2hi.addOne
  ⟨darr1, darr0, darr3, darr2⟩

/-- Kernel `increment_sse42` from `139 simd/simd_sse42.c`: same lane layout and pair
swap as `increment_sse41` but with no ceiling (its `_mm_crc32_u32(42, 99)`
computes a value that is discarded). -/
def increment_sse42 (arr : Vec4) : Vec4 :=
  let val1lo := arr.a1
  let val1hi := arr.a0
  let val2lo := arr.a3
  let val2hi := arr.a2
  let darr0 := val1lo.addOne
  let darr1 := val1hi.addOne
  let darr2 := val2lo.addOne
  let darr3 := val2hi.addOne
  ⟨darr1, darr0, darr3, darr2⟩

/-- A guarded entry of the priority chain: one
`if(fptr == NULL && X_available()) { fptr = increment_X; type = "X"; }` block
of `simdchecker.c`, or one `(TESTED_FEATURES) ? LEFT_TARGET :` arm produced
by `DISPATCH_CALL_CB` in `dispatch.h`. -/
structure KernelEntry (α : Type) where
  ext : Extension
  label : String
  impl : α

/-- The unguarded final entry: the `if(fptr == NULL) { fptr =
increment_fallback; type = "fallback"; }` block of `simdchecker.c`, or the
`(1) ? LEFT :` arm produced by `DISPATCH_CALL_BASE_CB`. -/
structure FallbackEntry (α : Type) where
  label : String
  impl : α

/-- A Dispatch Result: the resolved implementation together with the label
identifying which tier was selected (the `fptr` / `type` pair of
`simdchecker.c`). -/
def DispatchResult (α : Type) := String × α

/-- The priority chain of `152 simd/simdchecker.c` lines 20–83 (equally the
expansion of `DISPATCH_CALL` in `dispatch.h` lines 72–82): walk the guarded
entries in order, take the first one whose availability query answers true,
and fall through to the unguarded fallback entry otherwise. -/
def resolveChain {α : Type} (avail : Extension → Bool) :
    List (KernelEntry α) → FallbackEntry α → DispatchResult α
  | [], fb => (fb.label, fb.impl)
  | e :: rest, fb =>
    if avail e.ext then (e.label, e.impl) else resolveChain avail rest fb

/-- The spec's wording of the Dispatcher algorithm, for comparison with
`resolveChain`: "iterate `entriesFor(operation)` in priority order; … return
the first entry whose extension is available; if none match, return the
fallback entry". -/
def resolveSpec {α : Type} (avail : Extension → Bool)
    (entries : List (KernelEntry α)) (fb : FallbackEntry α) :
    DispatchResult α :=
  match entries.find? (fun e => avail e.ext) with
  | some e => (e.label, e.impl)
  | none => (fb.label, fb.impl)

/-- The Kernel Registry: a logical operation name maps to its ordered guarded
entries plus the mandatory fallback entry, or to nothing when the operation
was never registered (the empty `dispatch3.conf.h` case of
`2 multi_targets/main.c`). -/
def Registry (α : Type) := String → Option (List (KernelEntry α) × FallbackEntry α)

/-- Resolution through the registry: an unregistered operation yields no
implementation (the `DISPATCH_CALL` chain for `dispatch3` reduces to `NULL`
in `main.c`); a registered one is resolved by the priority chain. -/
def resolveOp {α : Type} (reg : Registry α) (avail : Extension → Bool)
    (op : String) : Option (DispatchResult α) :=
  match reg op with
  | none => none
  | some (entries, fb) => some (resolveChain avail entries fb)

/-- The guarded entries for the `increment` operation, in the priority order
of the `152 simd/simdchecker.c` chain restricted to the kernels defined in
`139 simd` ("better" instruction sets at the top: SSE4.2, SSE4.1, SSE,
MMX). -/
def incrementEntries : List (KernelEntry (Vec4 → Vec4)) :=
  [⟨.sse42, "SSE42", increment_sse42⟩,
   ⟨.sse41, "SSE41", increment_sse41⟩,
   ⟨.sse, "SSE", increment_sse⟩,
   ⟨.mmx, "MMX", increment_mmx⟩]

/-- The fallback entry for the `increment` operation. -/
def incrementFallback : FallbackEntry (Vec4 → Vec4) :=
  ⟨"fallback", increment_fallback⟩

/-- The registry holding the one operation the SIMD checkers exercise. -/
def simdRegistry : Registry (Vec4 → Vec4) := fun op =>
  if op = "increment" then some (incrementEntries, incrementFallback) else none

/-- The errors of the spec's taxonomy that can surface at dispatch time. -/
inductive DispatchError where
  | unknownOperation
  deriving DecidableEq, Repr

/-- The memoized Dispatch Results: operation name to cached result. -/
def Cache (α : Type) := String → Option (DispatchResult α)

/-- Modelled from the spec: the caching Dispatcher of §4.3 and §7 (the
repository's drivers keep the resolved `fptr` only in a local variable; the
memo table keyed by operation and the `UnknownOperation` error are the spec's
clean reimplementation and have no file under `src/`).  A cached operation is
answered from the cache without re-probing; an unregistered operation fails
with `UnknownOperation` and leaves the cache untouched; otherwise the chain
resolves the operation and the result is memoized. -/
def resolveCached {α : Type} (reg : Registry α) (avail : Extension → Bool)
    (cache : Cache α) (op : String) :
    Except DispatchError (DispatchResult α) × Cache α :=
  match cache op with
  | some r => (.ok r, cache)
  | none =>
    match reg op with
    | none => (.error .unknownOperation, cache)
    | some (entries, fb) =>
      let r := resolveChain avail entries fb
      (.ok r, fun o => if o = op then some r else cache o)

/-- Modelled from the spec: the Feature Probe of §4.1 with its lazily
computed, process-cached Capability Set (in the repository each
`X_available()` calls `__builtin_cpu_supports` directly against the static
hardware, and `cpu_has` of `2 multi_targets/main.c` is a constant stub; the
explicit cache is the spec's design).  `hw` is the static hardware fact; the
probe state is the cached Capability Set, absent before the first query. -/
def probeQuery (hw : Extension → Bool) (st : Option (Extension → Bool))
    (e : Extension) : Bool × Option (Extension → Bool) :=
  match st with
  | some caps => (caps e, some caps)
  | none => (hw e, some hw)

/-- The compile-time assertions of `2 multi_targets/dispatch1.c`: under
`HAVE_SSSE3` the macros `HAVE_SSE3`, `HAVE_SSE2`, `HAVE_SSE` must be defined,
and under `HAVE_ASIMD` the macros `HAVE_NEON`, `HAVE_NEON_FP16`,
`HAVE_NEON_VFPV4` must be defined; otherwise the translation unit fails with
`#error "expected a defention for implied features"`. -/
def impliedFeaturesCheck (en : Extension → Bool) : Bool :=
  (!(en .ssse3) || (en .sse3 && en .sse2 && en .sse)) &&
  (!(en .asimd) || (en .neon && en .neonFp16 && en .neonVfpv4))

/-- Modelled from the spec: the per-target enabled-feature sets the build
orchestrator defines when compiling one kernel for target tier `t` (the
generator of the `HAVE_*` macro sets is not under `src/`; the spec says a
higher tier implies all lower tiers are also present).  Listed are the
features each target tier implies, the x86 SSE→AVX2 chain and the ARM
NEON→ASIMD chain. -/
def impliedClosure : Extension → List Extension
  | .mmx => []
  | .sse => []
  | .sse2 => [.sse]
  | .sse3 => [.sse, .sse2]
  | .ssse3 => [.sse, .sse2, .sse3]
  | .sse41 => [.sse, .sse2, .sse3, .ssse3]
  | .sse42 => [.sse, .sse2, .sse3, .ssse3, .sse41]
  | .avx => [.sse, .sse2, .sse3, .ssse3, .sse41, .sse42]
  | .avx2 => [.sse, .sse2, .sse3, .ssse3, .sse41, .sse42, .avx]
  | .neon => []
  | .neonFp16 => [.neon]
  | .neonVfpv4 => [.neon, .neonFp16]
  | .asimd => [.neon, .neonFp16, .neonVfpv4]
  | .altivec => []

/-- The `HAVE_*` macro set in effect when compiling the kernel for target
tier `t`: the tier itself plus everything it implies. -/
def enabledFor (t : Extension) (e : Extension) : Bool :=
  e = t || (impliedClosure t).contains e

/-- The float `0.5`: a valid input on which the MMX kernel's truncating
`int16` conversion loses the fractional part. -/
def vHalf : Vec4 := ⟨⟨1, 2⟩, .ofInt 0, .ofInt 0, .ofInt 0⟩

/-- The float `2.5` in element 0: a valid input on which `_mm_ceil_pd`
inside `increment_sse41` is not a no-op. -/
def vTwoHalf : Vec4 := ⟨⟨5, 2⟩, .ofInt 0, .ofInt 0, .ofInt 0⟩

/-- A cache in which the operation `increment` has already been resolved. -/
def cacheWithIncrement : Cache (Vec4 → Vec4) := fun o =>
  if o = "increment" then some ("SSE42", increment_sse42) else none

/-- A capability function reporting every extension available. -/
def availAll : Extension → Bool := fun _ => true

theorem F.trunc_ofInt (n : Int) : (F.ofInt n).trunc = n := by
  simp [F.trunc, F.ofInt]

theorem F.addOne_ofInt (n : Int) : (F.ofInt n).addOne = F.ofInt (n + 1) := by
  simp [F.addOne, F.ofInt]

theorem F.ceil_ofInt (n : Int) : (F.ofInt n).ceil = n := by
  simp [F.ceil, F.ofInt]

theorem resolveChain_mem {α : Type} (avail : Extension → Bool)
    (entries : List (KernelEntry α)) (fb : FallbackEntry α) :
    resolveChain avail entries fb ∈ entries.map (fun e => (e.label, e.impl)) ∨
      resolveChain avail entries fb = (fb.label, fb.impl) := by
  induction entries with
  | nil => exact Or.inr rfl
  | cons e rest ih =>
    by_cases h : avail e.ext
    · exact Or.inl (by simp [resolveChain, h])
    · rcases ih with hm | hf
      · exact Or.inl (by simp [resolveChain, h]; exact Or.inr (by simpa using hm))
      · exact Or.inr (by simp [resolveChain, h, hf])

/-- C1: For every operation with a registered entry list, resolve returns the
implementation of the first entry, scanning in descending priority order,
whose required extension the Feature Probe reports available, and returns the
fallback entry when no non-fallback entry's extension is available: the chain
of `152 simd/simdchecker.c` / `DISPATCH_CALL` agrees with the spec's
first-available-else-fallback algorithm on every entry list, probe and
fallback. -/
theorem resolveChain_first_available (α : Type) (avail : Extension → Bool)
    (entries : List (KernelEntry α)) (fb : FallbackEntry α) :
    resolveChain avail entries fb = resolveSpec avail entries fb := by
  induction entries with
  | nil => rfl
  | cons e rest ih =>
    by_cases h : avail e.ext
    · simp [resolveChain, resolveSpec, List.find?, h]
    · simp [resolveChain, resolveSpec, List.find?, h] at ih ⊢
      exact ih

/-- C2: For the input vector `[2.0, 3.0, 4.0, 5.0]`, every registered tier's
increment implementation (the fallback and every guarded entry: MMX, SSE,
SSE4.1, SSE4.2) produces exactly `[3.0, 4.0, 5.0, 6.0]`. -/
theorem increment_all_tiers_on_sample :
    increment_fallback (.ofInts 2 3 4 5) = .ofInts 3 4 5 6 ∧
    ∀ e ∈ incrementEntries, e.impl (Vec4.ofInts 2 3 4 5) = Vec4.ofInts 3 4 5 6 := by
  constructor
  · decide
  · decide

/-- C2 witness: the theorem applied to the MMX entry of the registered
list. -/
theorem increment_all_tiers_on_sample_witness :
    increment_mmx (Vec4.ofInts 2 3 4 5) = Vec4.ofInts 3 4 5 6 :=
  increment_all_tiers_on_sample.2 ⟨.mmx, "MMX", increment_mmx⟩
    (by simp [incrementEntries])

/-- C3 counterexample: on the valid input `[0.5, 0, 0, 0]` the registered MMX
implementation (which truncates to `int16` lanes) is not numerically
equivalent to the fallback: it yields `1.0` in element 0 where the fallback
yields `1.5`. -/
theorem mmx_not_equiv_fallback_on_half :
    (⟨.mmx, "MMX", increment_mmx⟩ : KernelEntry (Vec4 → Vec4)) ∈ incrementEntries ∧
    vHalf.wf ∧ ¬ (increment_mmx vHalf).eqv (increment_fallback vHalf) :=
  ⟨by simp [incrementEntries], by decide, by decide⟩

/-- C3 amended: for every input whose four elements are integers in
`[0, 32766]` (the range on which the MMX kernel's `int16` conversion and
16-bit wraparound are exact — the source comments "we know that values in arr
are always small enough to fit in int16"), every registered tier's
implementation produces exactly the fallback's output. -/
theorem increment_tiers_agree_on_small_ints (n0 n1 n2 n3 : Int)
    (h0 : 0 ≤ n0) (h0u : n0 ≤ 32766) (h1 : 0 ≤ n1) (h1u : n1 ≤ 32766)
    (h2 : 0 ≤ n2) (h2u : n2 ≤ 32766) (h3 : 0 ≤ n3) (h3u : n3 ≤ 32766) :
    ∀ e ∈ incrementEntries,
      e.impl (Vec4.ofInts n0 n1 n2 n3) = increment_fallback (Vec4.ofInts n0 n1 n2 n3) := by
  have hmod : ∀ n : Int, 0 ≤ n → n ≤ 32766 → (n + 1).emod 65536 = n + 1 := by
    intro n hn hnu
    exact Int.emod_eq_of_lt (by omega) (by omega)
  intro e he
  simp only [incrementEntries, List.mem_cons, List.not_mem_nil, or_false] at he
  rcases he with rfl | rfl | rfl | rfl
  · simp [increment_sse42, increment_fallback, Vec4.addOne, Vec4.ofInts,
      F.addOne_ofInt]
  · simp [increment_sse41, increment_fallback, Vec4.addOne, Vec4.ofInts,
      F.addOne_ofInt, F.ceil_ofInt]
  · simp [increment_sse, increment_fallback, Vec4.addOne, Vec4.ofInts,
      F.addOne_ofInt]
  · simp [increment_mmx, increment_fallback, Vec4.addOne, Vec4.ofInts,
      F.trunc_ofInt, F.addOne_ofInt,
      hmod n0 h0 h0u, hmod n1 h1 h1u, hmod n2 h2 h2u, hmod n3 h3 h3u]

/-- C3 amended witness: the amended theorem applied to the input
`[2, 3, 4, 5]` and the MMX entry. -/
theorem increment_tiers_agree_on_small_ints_witness :
    (0 : Int) ≤ 2 ∧ (2 : Int) ≤ 32766 ∧
    increment_mmx (Vec4.ofInts 2 3 4 5) = increment_fallback (Vec4.ofInts 2 3 4 5) :=
  ⟨by decide, by decide,
    increment_tiers_agree_on_small_ints 2 3 4 5
      (by decide) (by decide) (by decide) (by decide)
      (by decide) (by decide) (by decide) (by decide)
      ⟨.mmx, "MMX", increment_mmx⟩ (by simp [incrementEntries])⟩

/-- C4: If the Feature Probe reports every extension unavailable (also when
the detection primitive does not exist, making every query false), the chain
selects the fallback entry for every operation and entry list, and the
registered `increment` operation still resolves successfully — degraded mode
is a result, never an error. -/
theorem resolveChain_all_unavailable :
    (∀ (α : Type) (entries : List (KernelEntry α)) (fb : FallbackEntry α),
      resolveChain (fun _ => false) entries fb = (fb.label, fb.impl)) ∧
    resolveOp simdRegistry (fun _ => false) "increment" =
      some ("fallback", increment_fallback) := by
  constructor
  · intro α entries fb
    induction entries with
    | nil => rfl
    | cons e rest ih => simpa [resolveChain] using ih
  · rfl

/-- C5: For every operation registered in the registry (hence having a
fallback entry), resolution returns an implementation — `some` of a Dispatch
Result that is either one of the registered guarded entries or the fallback —
whatever the capability queries answer. -/
theorem resolveOp_registered_total (α : Type) (reg : Registry α)
    (avail : Extension → Bool) (op : String)
    (entries : List (KernelEntry α)) (fb : FallbackEntry α)
    (h : reg op = some (entries, fb)) :
    ∃ r : DispatchResult α, resolveOp reg avail op = some r ∧
      (r ∈ entries.map (fun e => (e.label, e.impl)) ∨ r = (fb.label, fb.impl)) := by
  refine ⟨resolveChain avail entries fb, ?_, resolveChain_mem avail entries fb⟩
  simp [resolveOp, h]

/-- C5 witness: the registered `increment` operation of the SIMD registry
resolves under the all-false capability set. -/
theorem resolveOp_registered_total_witness :
    simdRegistry "increment" = some (incrementEntries, incrementFallback) ∧
    ∃ r : DispatchResult (Vec4 → Vec4),
      resolveOp simdRegistry (fun _ => false) "increment" = some r ∧
      (r ∈ incrementEntries.map (fun e => (e.label, e.impl)) ∨
        r = (incrementFallback.label, incrementFallback.impl)) :=
  ⟨rfl, resolveOp_registered_total (Vec4 → Vec4) simdRegistry (fun _ => false)
    "increment" incrementEntries incrementFallback rfl⟩

/-- C6: Dispatching an operation for which no entry (not even a fallback) was
ever registered yields no implementation at the chain level (the `NULL` that
`main.c` checks for `dispatch3`) and fails with `UnknownOperation` in the
caching Dispatcher, leaving the whole memo table — so in particular every
previously resolved operation's cached Dispatch Result — unchanged. -/
theorem resolveCached_unknown_operation (α : Type) (reg : Registry α)
    (avail : Extension → Bool) (cache : Cache α) (op : String)
    (hreg : reg op = none) (hcache : cache op = none) :
    resolveOp reg avail op = none ∧
    (resolveCached reg avail cache op).1 = .error .unknownOperation ∧
    (resolveCached reg avail cache op).2 = cache := by
  refine ⟨by simp [resolveOp, hreg], ?_, ?_⟩ <;>
    simp [resolveCached, hreg, hcache]

/-- C6 witness: resolving the never-registered `dispatch3` against the SIMD
registry, with `increment` already memoized, errors and keeps the cache. -/
theorem resolveCached_unknown_operation_witness :
    simdRegistry "dispatch3" = none ∧ cacheWithIncrement "dispatch3" = none ∧
    resolveOp simdRegistry availAll "dispatch3" = none ∧
    (resolveCached simdRegistry availAll cacheWithIncrement "dispatch3").1 =
      .error .unknownOperation ∧
    (resolveCached simdRegistry availAll cacheWithIncrement "dispatch3").2 =
      cacheWithIncrement :=
  ⟨rfl, rfl, resolveCached_unknown_operation (Vec4 → Vec4) simdRegistry availAll
    cacheWithIncrement "dispatch3" rfl rfl⟩

/-- C7: Calling resolve twice for the same operation while the Capability Set
is unchanged returns the identical Dispatch Result (same implementation and
same tier label) both times, and the second call leaves the memo table where
the first call put it. -/
theorem resolveCached_idempotent (α : Type) (reg : Registry α)
    (avail : Extension → Bool) (cache : Cache α) (op : String) :
    (resolveCached reg avail ((resolveCached reg avail cache op).2) op).1 =
      (resolveCached reg avail cache op).1 ∧
    (resolveCached reg avail ((resolveCached reg avail cache op).2) op).2 =
      (resolveCached reg avail cache op).2 := by
  match hc : cache op with
  | some r => simp [resolveCached, hc]
  | none =>
    match hr : reg op with
    | none => simp [resolveCached, hc, hr]
    | some (entries, fb) => simp [resolveCached, hc, hr]

/-- C8: Whenever a higher extension tier is enabled for a compiled kernel,
every lower tier it implies is also enabled: each target tier's `HAVE_*` set
passes the `#error` assertions of `dispatch1.c`, and in particular SSSE3
implies SSE3, SSE2 and SSE, and ASIMD implies NEON, NEON_FP16 and
NEON_VFPV4. -/
theorem enabledFor_implied_features :
    (∀ t : Extension, impliedFeaturesCheck (enabledFor t) = true) ∧
    enabledFor .ssse3 .sse3 = true ∧ enabledFor .ssse3 .sse2 = true ∧
    enabledFor .ssse3 .sse = true ∧
    enabledFor .asimd .neon = true ∧ enabledFor .asimd .neonFp16 = true ∧
    enabledFor .asimd .neonVfpv4 = true := by
  decide

/-- C9: For every extension, any two availability queries within one process
return the same boolean: starting from an empty or already-computed
Capability Set cache, the answer for `e` is unaffected by any other query
made in between (the underlying hardware facts `hw` are static). -/
theorem probeQuery_deterministic (hw : Extension → Bool)
    (st : Option (Extension → Bool)) (e e2 : Extension)
    (h : st = none ∨ st = some hw) :
    (probeQuery hw ((probeQuery hw st e2).2) e).1 = (probeQuery hw st e).1 := by
  rcases h with rfl | rfl <;> rfl

/-- C9 witness: on an all-true hardware, querying SSE twice around an MMX
query from the uninitialized probe state answers identically. -/
theorem probeQuery_deterministic_witness :
    (none = (none : Option (Extension → Bool)) ∨ none = some availAll) ∧
    (probeQuery availAll ((probeQuery availAll none .mmx).2) .sse).1 =
      (probeQuery availAll none .sse).1 :=
  ⟨Or.inl rfl,
    probeQuery_deterministic availAll none .sse .mmx (Or.inl rfl)⟩

/-- C10 counterexample: on the valid input `[2.5, 0, 0, 0]`,
`increment_sse41`'s element 0 is `ceil(2.5 + 1) = 4`, not the claimed
`2.5 + 1 = 3.5`: the `_mm_ceil_pd` step is not a no-op on non-integral
inputs, so the claimed "input plus 1.0 at every index" fails for SSE4.1. -/
theorem sse41_not_plus_one_on_half :
    vTwoHalf.wf ∧ ¬ ((increment_sse41 vTwoHalf).a0.eqv (vTwoHalf.a0.addOne)) :=
  ⟨by decide, by decide⟩

/-- C10 amended: for every 4-element float input, `increment_sse42`'s store
into swapped double lanes and swapped readback cancel exactly, so its output
is input plus 1.0 at every index; `increment_sse41`'s permutation cancels the
same way, but `_mm_ceil_pd` makes elements 0 and 1 equal
`ceil(input + 1.0)` — which coincides with input plus 1.0 whenever those two
elements are integral. -/
theorem sse41_sse42_swap_cancels (v : Vec4) :
    increment_sse42 v = v.addOne ∧
    increment_sse41 v =
      ⟨.ofInt (v.a0.addOne.ceil), .ofInt (v.a1.addOne.ceil),
        v.a2.addOne, v.a3.addOne⟩ ∧
    (∀ n0 n1 : Int, v.a0 = .ofInt n0 → v.a1 = .ofInt n1 →
      increment_sse41 v = v.addOne) := by
  refine ⟨rfl, rfl, ?_⟩
  intro n0 n1 h0 h1
  cases v
  simp_all [increment_sse41, Vec4.addOne, F.addOne_ofInt, F.ceil_ofInt]

/-- C10 amended witness: the amended theorem at the integral input
`[2, 3, 4, 5]`. -/
theorem sse41_sse42_swap_cancels_witness :
    (Vec4.ofInts 2 3 4 5).a0 = F.ofInt 2 ∧ (Vec4.ofInts 2 3 4 5).a1 = F.ofInt 3 ∧
    increment_sse41 (Vec4.ofInts 2 3 4 5) = (Vec4.ofInts 2 3 4 5).addOne :=
  ⟨rfl, rfl, (sse41_sse42_swap_cancels (Vec4.ofInts 2 3 4 5)).2.2 2 3 rfl rfl⟩
